import Mathlib

/-!
Verification of the access-log middleware (src/src/middleware/logger.rs).

The development shallowly embeds the logger: the format-string compiler
(`Format.new` via `fmtParse`/`dirParse`), the token type `FormatText` and its
three resolution phases (`render_request`, `render_response`, `render`), the
exclusion filter and middleware entry (`LoggerMiddleware.call`,
`LoggerResponse.poll`), the byte-counting body wrapper (`StreamLog`) and its
release-time emission (`StreamLog.drop`), and the builder operations on
`Logger` guarded by `Rc.get_mut`.

Modelling conventions:
- Rust panics (the `unreachable!` branch of `Format::new`, `Option::unwrap` on
  a shared `Rc`) are modelled as `none` / `Except.error`.
- Machine integers: byte counts are `Nat`; timestamps are `Int` nanoseconds.
- External collaborators are modelled at their boundary: the regex-set matcher
  used by the exclusion filter is an explicit function argument `rmatch`; the
  process environment is a function `String → Option String`; header values
  carry `Option String` where `none` stands for a value whose `to_str` fails;
  the `time` crate formatter behind `%t` is an injective placeholder rendering
  of the instant (no claim inspects its text).
-/

namespace AccessLog

/-! ## Request / response data model (boundary views, §6 of the spec) -/

/-- View of a request offered to the logger: method, path, query string,
protocol version, headers, and the two address-resolution results. A header
value of `none` models a value whose `to_str` conversion fails. -/
structure ServiceRequest where
  method : String
  path : String
  queryString : String
  version : String
  headers : List (String × Option String)
  remoteAddr : Option String
  realipRemoteAddr : Option String

/-- View of a response offered to the logger: status code and headers. -/
structure HttpResponse where
  status : Nat
  headers : List (String × Option String)

/-- The token type of the compiled format, mirroring `enum FormatText` in the
source. `CustomRequest` carries the label and the optionally bound callback
(`Option<CustomRequestFn>` in the source, an `Rc<dyn Fn>` shared by clones). -/
inductive FormatText where
  | Str (s : String)
  | Percent
  | RequestLine
  | RequestTime
  | ResponseStatus
  | ResponseSize
  | Time
  | TimeMillis
  | RemoteAddr
  | RealIpRemoteAddr
  | UrlPath
  | RequestHeader (name : String)
  | ResponseHeader (name : String)
  | EnvironHeader (name : String)
  | CustomRequest (label : String) (fn : Option (ServiceRequest → String))

/-- A compiled format is the ordered token sequence (`struct Format(Vec<FormatText>)`). -/
abbrev Format := List FormatText

/-! ## Format compiler (`Format::new`)

The source drives compilation by iterating the regex
`%(\x7b([A-Za-z0-9\-_]+)\x7d([aioe]|xi)|[%atPrUsbTD]?)` over the input with
`captures_iter`. Every match starts at a `%`; the braced alternative is
preferred, and the single-character class is optional, so a `%` followed by
nothing recognisable still yields a match of just `%` with an empty group 1
(pushed as `Str("")`). Text between matches is pushed verbatim as one `Str`
token. The `a` suffix with a label other than `r` reaches `unreachable!`,
modelled as `none`. -/

/-- Characters matched by the label class `[A-Za-z0-9\-_]` of the directive regex. -/
def isLabelChar (c : Char) : Bool :=
  c.isAlpha || c.isDigit || c = '-' || c = '_'

/-- Characters of the single-directive class `[%atPrUsbTD]` of the regex. -/
def isSingleDirChar (c : Char) : Bool :=
  c = '%' || c = 'a' || c = 't' || c = 'P' || c = 'r' || c = 'U' ||
  c = 's' || c = 'b' || c = 'T' || c = 'D'

/-- Token for a recognised single-character directive. The fallthrough arm of
the source match pushes the matched group as literal text, which is reachable
exactly for `P` (in the regex class but absent from the match arms). -/
def singleDir : Char → FormatText
  | '%' => .Percent
  | 'a' => .RemoteAddr
  | 't' => .RequestTime
  | 'r' => .RequestLine
  | 's' => .ResponseStatus
  | 'b' => .ResponseSize
  | 'U' => .UrlPath
  | 'T' => .Time
  | 'D' => .TimeMillis
  | c => .Str (String.mk [c])

/-- Parse the braced alternative after `%` and `\x7b` have been seen: a
nonempty label run, the closing brace, then suffix `a`, `i`, `o`, `e` or `xi`
(single letters preferred, as in the regex alternation). On failure the regex
match degrades to the empty group-1 match of just `%`, so the `\x7b` and
everything after it are left for rescanning. Suffix `a` with a label other
than `r` reaches the `unreachable!` arm: `none`. -/
def bracedParse (rest : List Char) : Option (FormatText × List Char) :=
  if (rest.takeWhile isLabelChar).isEmpty then some (.Str "", '{' :: rest)
  else
    match rest.dropWhile isLabelChar with
    | '}' :: 'a' :: r =>
      if rest.takeWhile isLabelChar = ['r'] then some (.RealIpRemoteAddr, r)
      else none
    | '}' :: 'i' :: r => some (.RequestHeader (String.mk (rest.takeWhile isLabelChar)), r)
    | '}' :: 'o' :: r => some (.ResponseHeader (String.mk (rest.takeWhile isLabelChar)), r)
    | '}' :: 'e' :: r => some (.EnvironHeader (String.mk (rest.takeWhile isLabelChar)), r)
    | '}' :: 'x' :: 'i' :: r => some (.CustomRequest (String.mk (rest.takeWhile isLabelChar)) none, r)
    | _ => some (.Str "", '{' :: rest)

/-- One regex match, starting right after a `%`. Returns the token pushed for
the match and the characters remaining after the match, or `none` for the
`unreachable!` panic. An unrecognised (or absent) next character makes the
optional class match empty: the token is `Str ""` and the character is not
consumed. -/
def dirParse : List Char → Option (FormatText × List Char)
  | [] => some (.Str "", [])
  | c :: rest =>
    if c = '{' then bracedParse rest
    else if isSingleDirChar c then some (singleDir c, rest)
    else some (.Str "", c :: rest)

/-- Fuel-indexed scanning loop of `Format::new`: at a `%`, one regex match via
`dirParse`; otherwise the maximal literal run up to the next `%` is pushed as
one `Str` token (the source pushes `s[idx..pos]` between matches and the tail
after the last match). Each step consumes at least one character, so fuel
exceeding the input length never runs out. -/
def fmtParseFuel : Nat → List Char → Option (List FormatText)
  | 0, _ => none
  | _ + 1, [] => some []
  | fuel + 1, c :: rest =>
    if c = '%' then
      match dirParse rest with
      | none => none
      | some (tok, rest2) => (fmtParseFuel fuel rest2).map (tok :: ·)
    else
      (fmtParseFuel fuel (rest.dropWhile (· != '%'))).map
        (FormatText.Str (String.mk (c :: rest.takeWhile (· != '%'))) :: ·)

/-- Compilation of a format string into tokens; `none` models the panic. -/
def fmtParse (cs : List Char) : Option (List FormatText) :=
  fmtParseFuel (cs.length + 1) cs

/-- Model of `Format::new`. -/
def Format.new (s : String) : Option Format :=
  fmtParse s.data

/-! ## Rendering phases of `FormatText` -/

/-- Header lookup used by both header directives: first header of the given
name; absent, or present with an unconvertible value, yields the sentinel.
Case normalisation of header names is performed by the external `http` crate
before storage and is elided here. -/
def headerValueStr (hs : List (String × Option String)) (name : String) : String :=
  match hs.lookup name with
  | some (some s) => s
  | some none => "-"
  | none => "-"

/-- Placeholder for the external `time` crate rendering of an instant with
pattern `%Y-%m-%dT%H:%M:%S`; modelled as an injective rendering of the
nanosecond timestamp, which no claim inspects. -/
def formatTimestamp (ns : Int) : String :=
  toString ns

/-- Pad a natural number with leading zeros to six digits. -/
def pad6 (n : Nat) : String :=
  let s := toString n
  String.mk (List.replicate (6 - s.length) '0') ++ s

/-- Render `units / 1000000` with six decimal places (the integer model of
the `\x7b:.6\x7d` float formatting used for the two elapsed-time tokens). -/
def fmtFrac6 (units : Int) : String :=
  let sign := if units < 0 then "-" else ""
  let m := units.natAbs
  sign ++ toString (m / 1000000) ++ "." ++ pad6 (m % 1000000)

/-- Elapsed seconds to six decimals, from elapsed nanoseconds. -/
def fmtSecs6 (ns : Int) : String :=
  fmtFrac6 (ns / 1000)

/-- Elapsed milliseconds to six decimals, from elapsed nanoseconds. -/
def fmtMillis6 (ns : Int) : String :=
  fmtFrac6 ns

/-- Final rendering phase (`FormatText::render`): already-collapsed text
writes its string, `Percent` writes the percent sign, the size token writes
the decimal byte count, the two elapsed-time tokens subtract the entry
timestamp from the render-time clock, the environment token performs its
lookup now, and every other token writes nothing. -/
def FormatText.render (ft : FormatText) (size : Nat) (entry now : Int)
    (env : String → Option String) : String :=
  match ft with
  | .Str s => s
  | .Percent => "%"
  | .ResponseSize => toString size
  | .Time => fmtSecs6 (now - entry)
  | .TimeMillis => fmtMillis6 (now - entry)
  | .EnvironHeader name =>
    match env name with
    | some v => v
    | none => "-"
  | _ => ""

/-- Response-phase collapsing (`FormatText::render_response`): status and
response-header tokens become literal text; everything else passes through. -/
def FormatText.render_response (ft : FormatText) (res : HttpResponse) : FormatText :=
  match ft with
  | .ResponseStatus => .Str (toString res.status)
  | .ResponseHeader name => .Str (headerValueStr res.headers name)
  | t => t

/-- Request-phase collapsing (`FormatText::render_request`): request-derived
tokens become literal text; an unbound custom field collapses to the sentinel;
everything else passes through. -/
def FormatText.render_request (ft : FormatText) (now : Int) (req : ServiceRequest) : FormatText :=
  match ft with
  | .RequestLine =>
    if req.queryString = "" then
      .Str (req.method ++ " " ++ req.path ++ " " ++ req.version)
    else
      .Str (req.method ++ " " ++ req.path ++ "?" ++ req.queryString ++ " " ++ req.version)
  | .UrlPath => .Str req.path
  | .RequestTime => .Str (formatTimestamp now)
  | .RequestHeader name => .Str (headerValueStr req.headers name)
  | .RemoteAddr =>
    match req.remoteAddr with
    | some peer => .Str peer
    | none => .Str "-"
  | .RealIpRemoteAddr =>
    match req.realipRemoteAddr with
    | some addr => .Str addr
    | none => .Str "-"
  | .CustomRequest _ (some f) => .Str (f req)
  | .CustomRequest _ none => .Str "-"
  | t => t

/-- Concatenation of the rendered tokens in sequence order (the `for` loop of
the drop-time closure handed to `FormatDisplay`). -/
def renderLine : List FormatText → Nat → Int → Int → (String → Option String) → String
  | [], _, _, _, _ => ""
  | u :: rest, size, entry, now, env =>
    u.render size entry now env ++ renderLine rest size entry now env

/-! ## Logger builder and middleware pipeline -/

/-- Reference-counted shared ownership, reduced to the one observable the
builder methods depend on: the strong count. -/
structure Rc (α : Type) where
  value : α
  strong : Nat

/-- Model of `Rc::get_mut`: mutable access only while the value is unshared. -/
def Rc.get_mut {α : Type} (r : Rc α) : Option α :=
  if r.strong = 1 then some r.value else none

/-- Shared state of the logger: compiled format, exact-path exclusion set and
exclusion patterns (the external regex-set compiler is elided; patterns are
kept as written and matched by an explicit matcher argument at call time). -/
structure Inner where
  format : Format
  exclude : List String
  exclude_regex : List String

/-- The builder (`pub struct Logger(Rc<Inner>)`). -/
structure Logger where
  inner : Rc Inner

/-- The panic raised by `Option::unwrap` on `None`. -/
inductive PanicKind where
  | unwrapNone

/-- Model of `Logger::new`; `none` propagates the compilation panic. -/
def Logger.new (s : String) : Option Logger :=
  (Format.new s).map (fun f => ⟨⟨⟨f, [], []⟩, 1⟩⟩)

/-- Model of `Logger::exclude`: `Rc::get_mut(..).unwrap()` then insert. -/
def Logger.exclude (lg : Logger) (path : String) : Except PanicKind Logger :=
  match lg.inner.get_mut with
  | some i => .ok ⟨⟨{ i with exclude := path :: i.exclude }, lg.inner.strong⟩⟩
  | none => .error .unwrapNone

/-- Model of `Logger::exclude_regex`: `Rc::get_mut(..).unwrap()`, push the
pattern and rebuild the set (regex compilation itself is external). -/
def Logger.exclude_regex (lg : Logger) (pat : String) : Except PanicKind Logger :=
  match lg.inner.get_mut with
  | some i => .ok ⟨⟨{ i with exclude_regex := i.exclude_regex ++ [pat] }, lg.inner.strong⟩⟩
  | none => .error .unwrapNone

/-- Rebind the first custom token whose label matches (the source uses
`iter_mut().find(..)`); when no token matches, the sequence is unchanged and
the source only emits a debug diagnostic. -/
def replaceFirstCustom (label : String) (f : ServiceRequest → String) :
    List FormatText → List FormatText
  | [] => []
  | .CustomRequest lbl fn :: rest =>
    if label = lbl then .CustomRequest lbl (some f) :: rest
    else .CustomRequest lbl fn :: replaceFirstCustom label f rest
  | t :: rest => t :: replaceFirstCustom label f rest

/-- Model of `Logger::custom_request_replace`: `Rc::get_mut(..).unwrap()`
then rebind the first matching custom token. -/
def Logger.custom_request_replace (lg : Logger) (label : String)
    (f : ServiceRequest → String) : Except PanicKind Logger :=
  match lg.inner.get_mut with
  | some i => .ok ⟨⟨{ i with format := replaceFirstCustom label f i.format }, lg.inner.strong⟩⟩
  | none => .error .unwrapNone

/-- The middleware service holding a clone of the shared state. -/
structure LoggerMiddleware where
  inner : Rc Inner

/-- Model of `Transform::new_transform`: cloning the `Rc` into the middleware
raises the strong count of every handle. -/
def Logger.new_transform (lg : Logger) : LoggerMiddleware × Logger :=
  (⟨⟨lg.inner.value, lg.inner.strong + 1⟩⟩, ⟨⟨lg.inner.value, lg.inner.strong + 1⟩⟩)

/-- State carried by the in-flight `LoggerResponse` future: the per-request
token sequence (absent for excluded paths) and the captured start timestamp. -/
structure LoggerResponseState where
  format : Option (List FormatText)
  time : Int

/-- Model of `LoggerMiddleware::call`. The exclusion test consults the
exact-path set and the pattern matcher `rmatch` (the external regex engine).
Both branches read the clock; only the non-excluded branch clones the format
and runs request-phase resolution. -/
def LoggerMiddleware.call (m : LoggerMiddleware) (rmatch : List String → String → Bool)
    (now : Int) (req : ServiceRequest) : LoggerResponseState :=
  let inner := m.inner.value
  if inner.exclude.contains req.path || rmatch inner.exclude_regex req.path then
    { format := none, time := now }
  else
    { format := some (inner.format.map (fun u => u.render_request now req)), time := now }

/-- The body wrapper (`pub struct StreamLog<B>`): remaining chunks of the
wrapped body (each chunk either data or a body error), the per-request token
sequence, the running byte count and the start timestamp. -/
structure StreamLog where
  body : List (Except String String)
  format : Option (List FormatText)
  size : Nat
  time : Int

/-- Model of `LoggerResponse::poll` after the inner service resolves:
response-phase resolution on the tokens (when present), then the response
body is wrapped in a fresh `StreamLog` with a zero byte count. This happens
for excluded requests as well, with `format = none`. -/
def LoggerResponse.poll (st : LoggerResponseState) (res : HttpResponse)
    (body : List (Except String String)) : StreamLog :=
  { body := body
    format := st.format.map (fun fmt => fmt.map (fun u => u.render_response res))
    size := 0
    time := st.time }

/-- Model of `StreamLog::poll_next`: a data chunk advances the byte count by
its length before being forwarded; an error chunk and exhaustion pass through
unchanged (the `val => val` arm). -/
def StreamLog.poll_next (s : StreamLog) : Option (Except String String) × StreamLog :=
  match s.body with
  | [] => (none, s)
  | .ok chunk :: rest => (some (.ok chunk), { s with body := rest, size := s.size + chunk.length })
  | .error e :: rest => (some (.error e), { s with body := rest })

/-- Pull `n` chunks through the wrapper (the transport drain loop; `n` smaller
than the body length models abandonment before completion). -/
def StreamLog.pullN : Nat → StreamLog → StreamLog
  | 0, s => s
  | n + 1, s => StreamLog.pullN n s.poll_next.2

/-- Model of the pinned drop of `StreamLog`: at wrapper release, when a
per-request format is present, the line is rendered from the accumulated
byte count and the start timestamp and emitted; otherwise nothing is emitted.
The returned value is the emitted line. -/
def StreamLog.drop (s : StreamLog) (now : Int) (env : String → Option String) : Option String :=
  s.format.map (fun fmt => renderLine fmt s.size s.time now env)

/-- Byte count of a pulled item: only data chunks contribute. -/
def okChunkLen : Except String String → Nat
  | .ok c => c.length
  | .error _ => 0

/-- Specification quantity for claim C2: total bytes of the data chunks among
the first `n` items pulled from the body. -/
def pulledBytes (body : List (Except String String)) (n : Nat) : Nat :=
  ((body.take n).map okChunkLen).sum

/-! ## Concrete data shared by witnesses and counterexamples -/

/-- Environment with every variable unset. -/
def env0 : String → Option String := fun _ => none

/-- A plain request with one header and both addresses available. -/
def req0 : ServiceRequest :=
  ⟨"GET", "/", "", "HTTP/1.1", [("user-agent", some "UA")], some "127.0.0.1:1", some "192.0.2.60"⟩

/-- A request for the excluded path. -/
def reqH : ServiceRequest :=
  ⟨"GET", "/health", "", "HTTP/1.1", [], none, none⟩

/-- A plain 200 response without headers. -/
def res0 : HttpResponse := ⟨200, []⟩

/-- A one-chunk body. -/
def body0 : List (Except String String) := [.ok "hi"]

/-- Shared state excluding the exact path `/health`. -/
def inner0 : Inner := ⟨[FormatText.ResponseSize], ["/health"], []⟩

/-- A middleware instance over `inner0` (the builder handle also remains, so
the strong count is 2). -/
def m0 : LoggerMiddleware := ⟨⟨inner0, 2⟩⟩

/-- Pattern matcher that matches nothing (an empty regex set). -/
def rmatch0 : List String → String → Bool := fun _ _ => false

/-- A logger handle whose state became shared when the middleware was built
from it via `new_transform`. -/
def lgShared : Logger := (Logger.new_transform ⟨⟨inner0, 1⟩⟩).2

/-! ## Parser lemmas -/

/-- Length bound for the braced alternative: the remainder never exceeds the
brace-opened input (the fallback re-exposes the opening brace). -/
theorem bracedParse_length (rest : List Char) (t : FormatText) (r : List Char)
    (h : bracedParse rest = some (t, r)) : r.length ≤ rest.length + 1 := by
  have hdw : (rest.dropWhile isLabelChar).length ≤ rest.length :=
    (List.dropWhile_sublist isLabelChar).length_le
  unfold bracedParse at h
  split at h
  · simp only [Option.some.injEq, Prod.mk.injEq] at h
    obtain ⟨-, rfl⟩ := h
    simp
  · split at h
    all_goals try split at h
    all_goals
      first
      | exact Option.noConfusion h
      | (simp only [Option.some.injEq, Prod.mk.injEq] at h
         obtain ⟨-, rfl⟩ := h
         simp_all
         try omega)

/-- Length bound for one directive match: the remainder never exceeds the
input (the empty-group match consumes nothing after the percent sign). -/
theorem dirParse_length (l : List Char) (t : FormatText) (r : List Char)
    (h : dirParse l = some (t, r)) : r.length ≤ l.length := by
  cases l with
  | nil =>
    simp only [dirParse, Option.some.injEq, Prod.mk.injEq] at h
    obtain ⟨-, rfl⟩ := h
    simp
  | cons c rest =>
    simp only [dirParse] at h
    split_ifs at h
    · have := bracedParse_length rest t r h
      simp
      omega
    · simp only [Option.some.injEq, Prod.mk.injEq] at h
      obtain ⟨-, rfl⟩ := h
      simp
    · simp only [Option.some.injEq, Prod.mk.injEq] at h
      obtain ⟨-, rfl⟩ := h
      simp

/-- Scanning is fuel-irrelevant once the fuel exceeds the input length. -/
theorem fmtParseFuel_congr (f : Nat) : ∀ (g : Nat) (cs : List Char),
    cs.length < f → cs.length < g → fmtParseFuel f cs = fmtParseFuel g cs := by
  induction f with
  | zero => intro g cs hf; omega
  | succ f ih =>
    intro g cs hf hg
    cases g with
    | zero => omega
    | succ g =>
      cases cs with
      | nil => rfl
      | cons c rest =>
        simp only [fmtParseFuel]
        by_cases hc : c = '%'
        · simp only [if_pos hc]
          cases hd : dirParse rest with
          | none => rfl
          | some pr =>
            obtain ⟨tok, rest2⟩ := pr
            have hlen := dirParse_length rest tok rest2 hd
            simp only [List.length_cons] at hf hg
            dsimp only
            rw [ih g rest2 (by omega) (by omega)]
        · simp only [if_neg hc]
          have hlen := (List.dropWhile_sublist (l := rest) (· != '%')).length_le
          simp only [List.length_cons] at hf hg
          rw [ih g (rest.dropWhile (· != '%')) (by omega) (by omega)]

/-- Step equation for the scanner at a percent sign, phrased without fuel. -/
theorem fmtParse_pct (l : List Char) :
    fmtParse ('%' :: l) =
      match dirParse l with
      | none => none
      | some (tok, rest2) => (fmtParse rest2).map (tok :: ·) := by
  cases hd : dirParse l with
  | none =>
    show fmtParseFuel ((l.length + 1) + 1) ('%' :: l) = _
    unfold fmtParseFuel
    rw [if_pos rfl, hd]
  | some pr =>
    obtain ⟨tok, rest2⟩ := pr
    have hlen := dirParse_length l tok rest2 hd
    show fmtParseFuel ((l.length + 1) + 1) ('%' :: l) = _
    unfold fmtParseFuel
    rw [if_pos rfl, hd]
    dsimp only
    rw [fmtParseFuel_congr (l.length + 1) (rest2.length + 1) rest2 (by omega) (by omega)]
    rfl

/-- Step equation for the scanner at a literal character: the maximal run up
to the next percent sign becomes one text token. -/
theorem fmtParse_lit (c : Char) (l : List Char) (hc : c ≠ '%') :
    fmtParse (c :: l) =
      (fmtParse (l.dropWhile (· != '%'))).map
        (FormatText.Str (String.mk (c :: l.takeWhile (· != '%'))) :: ·) := by
  have hlen := (List.dropWhile_sublist (l := l) (· != '%')).length_le
  show fmtParseFuel ((l.length + 1) + 1) (c :: l) = _
  unfold fmtParseFuel
  rw [if_neg hc]
  rw [fmtParseFuel_congr (l.length + 1) ((l.dropWhile (· != '%')).length + 1)
    (l.dropWhile (· != '%')) (by omega) (by omega)]
  rfl

/-- Scanning the empty input yields the empty token sequence. -/
theorem fmtParse_nil : fmtParse [] = some [] := rfl

/-- A predicate holding everywhere makes `takeWhile` the identity. -/
theorem takeWhile_all (p : Char → Bool) :
    ∀ l : List Char, (∀ a ∈ l, p a = true) → l.takeWhile p = l := by
  intro l h
  induction l with
  | nil => rfl
  | cons c rest ih =>
    simp only [List.takeWhile_cons, h c (by simp), if_pos]
    rw [ih (fun a ha => h a (by simp [ha]))]

/-- A predicate holding everywhere makes `dropWhile` drop everything. -/
theorem dropWhile_all (p : Char → Bool) :
    ∀ l : List Char, (∀ a ∈ l, p a = true) → l.dropWhile p = [] := by
  intro l h
  induction l with
  | nil => rfl
  | cons c rest ih =>
    simp only [List.dropWhile_cons, h c (by simp), if_pos]
    exact ih (fun a ha => h a (by simp [ha]))

/-- The `takeWhile` of a run closed by one failing character is the run. -/
theorem takeWhile_append_end (p : Char → Bool) (x : Char) (hx : p x = false) :
    ∀ l : List Char, (∀ a ∈ l, p a = true) → (l ++ [x]).takeWhile p = l := by
  intro l h
  induction l with
  | nil => simp [List.takeWhile_cons, hx]
  | cons c rest ih =>
    simp only [List.cons_append, List.takeWhile_cons, h c (by simp), if_pos]
    rw [ih (fun a ha => h a (by simp [ha]))]

/-- The `dropWhile` of a run closed by one failing character is that character. -/
theorem dropWhile_append_end (p : Char → Bool) (x : Char) (hx : p x = false) :
    ∀ l : List Char, (∀ a ∈ l, p a = true) → (l ++ [x]).dropWhile p = [x] := by
  intro l h
  induction l with
  | nil => simp [List.dropWhile_cons, hx]
  | cons c rest ih =>
    simp only [List.cons_append, List.dropWhile_cons, h c (by simp), if_pos]
    exact ih (fun a ha => h a (by simp [ha]))

/-! ## Wrapper lemmas -/

/-- Unrolling the pulled-byte count over the first pulled item. -/
theorem pulledBytes_cons (x : Except String String) (l : List (Except String String)) (n : Nat) :
    pulledBytes (x :: l) (n + 1) = okChunkLen x + pulledBytes l n := by
  simp [pulledBytes]

/-- An exhausted body contributes no pulled bytes. -/
theorem pulledBytes_nil (n : Nat) : pulledBytes [] n = 0 := by
  simp [pulledBytes]

/-- Pulling chunks advances the byte count by exactly the data bytes pulled
and never touches the per-request format or the start timestamp. -/
theorem pullN_spec (n : Nat) : ∀ s : StreamLog,
    (StreamLog.pullN n s).size = s.size + pulledBytes s.body n
    ∧ (StreamLog.pullN n s).format = s.format
    ∧ (StreamLog.pullN n s).time = s.time := by
  induction n with
  | zero => intro s; simp [StreamLog.pullN, pulledBytes]
  | succ n ih =>
    intro s
    obtain ⟨body, fmt, size, time⟩ := s
    cases body with
    | nil =>
      have h := ih ⟨[], fmt, size, time⟩
      simp only [StreamLog.pullN, StreamLog.poll_next] at h ⊢
      simpa [pulledBytes_nil] using h
    | cons chunk rest =>
      cases chunk with
      | ok c =>
        have h := ih ⟨rest, fmt, size + c.length, time⟩
        simp only [StreamLog.pullN, StreamLog.poll_next] at h ⊢
        refine ⟨?_, h.2.1, h.2.2⟩
        rw [h.1, pulledBytes_cons]
        simp [okChunkLen]
        omega
      | error e =>
        have h := ih ⟨rest, fmt, size, time⟩
        simp only [StreamLog.pullN, StreamLog.poll_next] at h ⊢
        refine ⟨?_, h.2.1, h.2.2⟩
        rw [h.1, pulledBytes_cons]
        simp [okChunkLen]

/-- Test for a custom token carrying the given label (the condition of the
`find` in `custom_request_replace`). -/
def isCustomLabel (label : String) : FormatText → Bool
  | .CustomRequest lbl _ => label == lbl
  | _ => false

/-- Registering twice for the same label keeps only the latest callback: the
second registration lands on the same first matching token. -/
theorem replaceFirstCustom_latest (label : String) (f g : ServiceRequest → String) :
    ∀ l : List FormatText,
      replaceFirstCustom label f (replaceFirstCustom label g l) = replaceFirstCustom label f l := by
  intro l
  induction l with
  | nil => rfl
  | cons t rest ih =>
    cases t with
    | CustomRequest lbl fn =>
      by_cases hl : label = lbl <;> simp [replaceFirstCustom, hl, ih]
    | Str s => simp [replaceFirstCustom, ih]
    | Percent => simp [replaceFirstCustom, ih]
    | RequestLine => simp [replaceFirstCustom, ih]
    | RequestTime => simp [replaceFirstCustom, ih]
    | ResponseStatus => simp [replaceFirstCustom, ih]
    | ResponseSize => simp [replaceFirstCustom, ih]
    | Time => simp [replaceFirstCustom, ih]
    | TimeMillis => simp [replaceFirstCustom, ih]
    | RemoteAddr => simp [replaceFirstCustom, ih]
    | RealIpRemoteAddr => simp [replaceFirstCustom, ih]
    | UrlPath => simp [replaceFirstCustom, ih]
    | RequestHeader nm => simp [replaceFirstCustom, ih]
    | ResponseHeader nm => simp [replaceFirstCustom, ih]
    | EnvironHeader nm => simp [replaceFirstCustom, ih]

/-- Registration rebinds exactly the first matching occurrence: tokens before
it are unchanged and tokens after it, matching or not, are unchanged. -/
theorem replaceFirstCustom_first (label : String) (f : ServiceRequest → String) :
    ∀ l1 : List FormatText, (∀ t ∈ l1, isCustomLabel label t = false) →
      ∀ (o : Option (ServiceRequest → String)) (l2 : List FormatText),
        replaceFirstCustom label f (l1 ++ FormatText.CustomRequest label o :: l2)
          = l1 ++ FormatText.CustomRequest label (some f) :: l2 := by
  intro l1
  induction l1 with
  | nil => intro _ o l2; simp [replaceFirstCustom]
  | cons t rest ih =>
    intro h o l2
    have ht := h t (by simp)
    have hrest : ∀ a ∈ rest, isCustomLabel label a = false := fun a ha => h a (by simp [ha])
    cases t with
    | CustomRequest lbl fn =>
      have hne : ¬ label = lbl := by simpa [isCustomLabel] using ht
      simp [replaceFirstCustom, hne, ih hrest o l2]
    | Str s => simp [replaceFirstCustom, ih hrest o l2]
    | Percent => simp [replaceFirstCustom, ih hrest o l2]
    | RequestLine => simp [replaceFirstCustom, ih hrest o l2]
    | RequestTime => simp [replaceFirstCustom, ih hrest o l2]
    | ResponseStatus => simp [replaceFirstCustom, ih hrest o l2]
    | ResponseSize => simp [replaceFirstCustom, ih hrest o l2]
    | Time => simp [replaceFirstCustom, ih hrest o l2]
    | TimeMillis => simp [replaceFirstCustom, ih hrest o l2]
    | RemoteAddr => simp [replaceFirstCustom, ih hrest o l2]
    | RealIpRemoteAddr => simp [replaceFirstCustom, ih hrest o l2]
    | UrlPath => simp [replaceFirstCustom, ih hrest o l2]
    | RequestHeader nm => simp [replaceFirstCustom, ih hrest o l2]
    | ResponseHeader nm => simp [replaceFirstCustom, ih hrest o l2]
    | EnvironHeader nm => simp [replaceFirstCustom, ih hrest o l2]

/-! ## Claim theorems -/

/-- Claim C1: the claim states that `Format::new` compiles every input string
without panicking, in particular strings with a braced label whose suffix is
`a` but whose label is not `r`. Evaluating the model at the failing input
`%\x7bx\x7da` shows compilation reaching the `unreachable!` arm (modelled as
`none`): the code panics where its own `unreachable!` assertion and the
specification say compilation must succeed. -/
theorem C1_format_new_panics_on_bad_braced_a : Format.new "%{x}a" = none := rfl

/-- Claim C2: after pulling any number of chunks through the wrapper, the
accumulated byte count equals the data bytes of exactly the pulled chunks,
the line emitted at release is rendered with precisely that count, and the
size token writes its decimal rendering — including when the body is
abandoned before completion (`n` below the body length). -/
theorem C2_size_counts_exactly_pulled_bytes (body : List (Except String String))
    (fmt : List FormatText) (t now : Int) (env : String → Option String) (n : Nat) :
    (StreamLog.pullN n ⟨body, some fmt, 0, t⟩).size = pulledBytes body n
    ∧ (StreamLog.pullN n ⟨body, some fmt, 0, t⟩).drop now env
        = some (renderLine fmt (pulledBytes body n) t now env)
    ∧ FormatText.ResponseSize.render (pulledBytes body n) t now env
        = toString (pulledBytes body n) := by
  obtain ⟨h1, h2, h3⟩ := pullN_spec n ⟨body, some fmt, 0, t⟩
  have h1s : (StreamLog.pullN n ⟨body, some fmt, 0, t⟩).size = pulledBytes body n := by
    simpa using h1
  have h2s : (StreamLog.pullN n ⟨body, some fmt, 0, t⟩).format = some fmt := by
    simpa using h2
  have h3s : (StreamLog.pullN n ⟨body, some fmt, 0, t⟩).time = t := by
    simpa using h3
  refine ⟨h1s, ?_, rfl⟩
  simp [StreamLog.drop, h1s, h2s, h3s]

/-- Claim C3: a request whose path is in the exact-exclusion set or matched
by the pattern set produces no log line at wrapper release, whatever the
response, however many chunks are pulled, and whenever the release happens. -/
theorem C3_excluded_path_never_logs (m : LoggerMiddleware)
    (rmatch : List String → String → Bool) (now0 : Int) (req : ServiceRequest)
    (res : HttpResponse) (body : List (Except String String)) (n : Nat) (now1 : Int)
    (env : String → Option String)
    (h : (m.inner.value.exclude.contains req.path
          || rmatch m.inner.value.exclude_regex req.path) = true) :
    (StreamLog.pullN n (LoggerResponse.poll (m.call rmatch now0 req) res body)).drop now1 env
      = none := by
  have h2 : req.path ∈ m.inner.value.exclude
      ∨ rmatch m.inner.value.exclude_regex req.path = true := by
    simpa using h
  have hfmt : (m.call rmatch now0 req).format = none := by
    simp [LoggerMiddleware.call, h2]
  have hp : (LoggerResponse.poll (m.call rmatch now0 req) res body).format = none := by
    simp [LoggerResponse.poll, hfmt]
  have hpres := (pullN_spec n (LoggerResponse.poll (m.call rmatch now0 req) res body)).2.1
  simp [StreamLog.drop, hpres, hp]

/-- Claim C3 witness: the concrete excluded path `/health` satisfies the
exclusion test and its wrapper release emits nothing. -/
theorem C3_witness :
    (m0.inner.value.exclude.contains reqH.path
      || rmatch0 m0.inner.value.exclude_regex reqH.path) = true
    ∧ (StreamLog.pullN 1 (LoggerResponse.poll (m0.call rmatch0 3 reqH) res0 body0)).drop 9 env0
        = none :=
  ⟨rfl, C3_excluded_path_never_logs m0 rmatch0 3 reqH res0 body0 1 9 env0 rfl⟩

/-- Claim C7: the percent token always renders as a single percent sign, and
the format string `%%\x7br\x7da` compiles and renders through all phases to
the literal text `%\x7br\x7da`, not to a resolved real-address value. -/
theorem C7_percent_escape :
    (∀ (size : Nat) (entry now : Int) (env : String → Option String),
      FormatText.Percent.render size entry now env = "%")
    ∧ (Format.new "%%{r}a").map (fun f =>
        renderLine (f.map (fun u => (u.render_request 7 req0).render_response res0))
          1024 0 0 env0)
      = some "%{r}a" :=
  ⟨fun _ _ _ _ => rfl, rfl⟩

/-- Claim C8: every lookup failure degrades to the sentinel: an absent or
unconvertible request header, an absent or unconvertible response header, an
unset environment variable, and a custom field with no bound callback all
render as the text `-`. -/
theorem C8_lookup_failures_render_dash (req : ServiceRequest) (res : HttpResponse)
    (hn hm he lbl : String) (now : Int) (size : Nat) (entry rnow : Int)
    (env : String → Option String)
    (hreq : req.headers.lookup hn = none ∨ req.headers.lookup hn = some none)
    (hres : res.headers.lookup hm = none ∨ res.headers.lookup hm = some none)
    (henv : env he = none) :
    (FormatText.RequestHeader hn).render_request now req = .Str "-"
    ∧ (FormatText.ResponseHeader hm).render_response res = .Str "-"
    ∧ (FormatText.EnvironHeader he).render size entry rnow env = "-"
    ∧ (FormatText.CustomRequest lbl none).render_request now req = .Str "-" := by
  refine ⟨?_, ?_, ?_, rfl⟩
  · rcases hreq with h | h <;> simp [FormatText.render_request, headerValueStr, h]
  · rcases hres with h | h <;> simp [FormatText.render_response, headerValueStr, h]
  · simp [FormatText.render, henv]

/-- Claim C8 witness: concrete absent headers, an unset variable and an
unbound custom field all render as the sentinel. -/
theorem C8_witness :
    (req0.headers.lookup "x-missing" = none ∨ req0.headers.lookup "x-missing" = some none)
    ∧ (res0.headers.lookup "x-absent" = none ∨ res0.headers.lookup "x-absent" = some none)
    ∧ env0 "HOME" = none
    ∧ (FormatText.RequestHeader "x-missing").render_request 0 req0 = .Str "-"
    ∧ (FormatText.ResponseHeader "x-absent").render_response res0 = .Str "-"
    ∧ (FormatText.EnvironHeader "HOME").render 0 0 0 env0 = "-"
    ∧ (FormatText.CustomRequest "L" none).render_request 0 req0 = .Str "-" := by
  have h := C8_lookup_failures_render_dash req0 res0 "x-missing" "x-absent" "HOME" "L" 0 0 0 0
    env0 (Or.inl rfl) (Or.inl rfl) rfl
  exact ⟨Or.inl rfl, Or.inl rfl, rfl, h.1, h.2.1, h.2.2.1, h.2.2.2⟩

/-- Claim C4 counterexample: with format `%\x7bX\x7dxi %\x7bX\x7dxi` and a
callback registered for `X` returning `V`, the request-phase rendering is
`V -`, not `V V`: only the first occurrence is bound to the callback, the
second collapses to the sentinel, refuting the claim that every occurrence
renders the callback value. -/
theorem C4_cex_second_occurrence_unbound :
    ((Logger.new "%{X}xi %{X}xi").map (fun lg =>
      (lg.custom_request_replace "X" (fun _ => "V")).map (fun lg2 =>
        renderLine (lg2.inner.value.format.map (fun u => u.render_request 0 req0)) 0 0 0 env0)))
      = some (.ok "V -")
    ∧ "V -" ≠ "V V" :=
  ⟨rfl, by decide⟩

/-- Claim C4 as amended: registration rebinds exactly the first matching
custom token (occurrences after it keep their previous binding), a bound
token renders the callback result for the request, and registering twice for
the same label keeps only the latest callback. -/
theorem C4_first_occurrence_and_latest_callback (label : String)
    (f g : ServiceRequest → String) (l l1 l2 : List FormatText)
    (o : Option (ServiceRequest → String)) (now : Int) (req : ServiceRequest)
    (h : ∀ t ∈ l1, isCustomLabel label t = false) :
    replaceFirstCustom label f (replaceFirstCustom label g l) = replaceFirstCustom label f l
    ∧ replaceFirstCustom label f (l1 ++ FormatText.CustomRequest label o :: l2)
        = l1 ++ FormatText.CustomRequest label (some f) :: l2
    ∧ (FormatText.CustomRequest label (some f)).render_request now req = .Str (f req) :=
  ⟨replaceFirstCustom_latest label f g l, replaceFirstCustom_first label f l1 h o l2, rfl⟩

/-- Claim C4 witness: concrete registration over a one-literal prefix. -/
theorem C4_witness :
    (∀ t ∈ [FormatText.Str "pre "], isCustomLabel "X" t = false)
    ∧ replaceFirstCustom "X" (fun _ => "V")
        (replaceFirstCustom "X" (fun _ => "W") [FormatText.CustomRequest "X" none])
      = replaceFirstCustom "X" (fun _ => "V") [FormatText.CustomRequest "X" none]
    ∧ replaceFirstCustom "X" (fun _ => "V")
        ([FormatText.Str "pre "] ++ FormatText.CustomRequest "X" none :: [])
      = [FormatText.Str "pre "] ++ FormatText.CustomRequest "X" (some (fun _ => "V")) :: []
    ∧ (FormatText.CustomRequest "X" (some (fun _ => "V"))).render_request 0 req0
        = .Str ((fun _ : ServiceRequest => "V") req0) := by
  have h := C4_first_occurrence_and_latest_callback "X" (fun _ => "V") (fun _ => "W")
    [FormatText.CustomRequest "X" none] [FormatText.Str "pre "] [] none 0 req0
    (by intro t ht; simp at ht; subst ht; rfl)
  exact ⟨by intro t ht; simp at ht; subst ht; rfl, h.1, h.2.1, h.2.2⟩

/-- Claim C5 counterexample: the format string `%q` compiles and renders to
`q`, not `%q`: the unrecognised directive character is kept but the percent
sign is dropped, refuting the claim that such input re-renders to the same
characters. -/
theorem C5_cex_percent_dropped :
    (Format.new "%q").map (fun f => renderLine f 0 0 0 env0) = some "q"
    ∧ "q" ≠ "%q" :=
  ⟨rfl, by decide⟩

/-- Claim C5 as amended: text between directives is emitted verbatim as one
literal token; an unmatched trailing percent sign compiles to an empty
literal (so the percent sign is dropped from the output), and a percent sign
followed by an unrecognised directive character compiles to an empty literal
followed by the bare character (again dropping the percent sign), rather
than erroring. -/
theorem C5_literal_verbatim_percent_dropped (cs : List Char) (c : Char)
    (hne : cs ≠ []) (hnp : '%' ∉ cs)
    (hdir : isSingleDirChar c = false) (hbr : c ≠ '{') :
    fmtParse cs = some [FormatText.Str (String.mk cs)]
    ∧ fmtParse (cs ++ ['%']) = some [FormatText.Str (String.mk cs), FormatText.Str ""]
    ∧ fmtParse ['%', c] = some [FormatText.Str "", FormatText.Str (String.mk [c])]
    ∧ renderLine [FormatText.Str (String.mk cs), FormatText.Str ""] 0 0 0 env0 = String.mk cs
    ∧ renderLine [FormatText.Str "", FormatText.Str (String.mk [c])] 0 0 0 env0
        = String.mk [c] := by
  have hc' : c ≠ '%' := by
    intro e
    rw [e] at hdir
    exact absurd hdir (by decide)
  obtain ⟨c0, rest, rfl⟩ : ∃ c0 rest, cs = c0 :: rest := by
    cases cs with
    | nil => exact absurd rfl hne
    | cons a l => exact ⟨a, l, rfl⟩
  have hc0 : c0 ≠ '%' := fun e => hnp (by simp [e])
  have hall : ∀ a ∈ rest, (a != '%') = true := by
    intro a ha
    have : a ≠ '%' := fun e => hnp (by simp [e ▸ ha])
    simpa [bne_iff_ne]
  refine ⟨?_, ?_, ?_, ?_, ?_⟩
  · rw [fmtParse_lit c0 rest hc0, takeWhile_all _ rest hall, dropWhile_all _ rest hall]
    rfl
  · rw [List.cons_append, fmtParse_lit c0 (rest ++ ['%']) hc0,
      takeWhile_append_end _ '%' (by decide) rest hall,
      dropWhile_append_end _ '%' (by decide) rest hall]
    rfl
  · rw [show (['%', c] : List Char) = '%' :: [c] from rfl, fmtParse_pct [c]]
    have hd : dirParse [c] = some (.Str "", [c]) := by
      simp [dirParse, hbr, hdir]
    rw [hd]
    dsimp only
    rw [fmtParse_lit c [] hc']
    rfl
  · simp [renderLine, FormatText.render]
  · simp [renderLine, FormatText.render]

/-- Claim C5 witness: the concrete literal `a`, the trailing-percent string
`a%` and the unrecognised directive `%q`. -/
theorem C5_witness :
    (['a'] : List Char) ≠ []
    ∧ '%' ∉ (['a'] : List Char)
    ∧ isSingleDirChar 'q' = false
    ∧ 'q' ≠ '{'
    ∧ fmtParse ['a'] = some [FormatText.Str (String.mk ['a'])]
    ∧ fmtParse (['a'] ++ ['%']) = some [FormatText.Str (String.mk ['a']), FormatText.Str ""]
    ∧ fmtParse ['%', 'q'] = some [FormatText.Str "", FormatText.Str (String.mk ['q'])] := by
  have h := C5_literal_verbatim_percent_dropped ['a'] 'q' (by decide) (by decide)
    (by decide) (by decide)
  exact ⟨by decide, by decide, by decide, by decide, h.1, h.2.1, h.2.2.1⟩

/-- Claim C6 counterexample: for the excluded path `/health` the middleware
call still reads and stores the clock (its result depends on the clock
reading), and polling still wraps the response body in a `StreamLog`
decorator, refuting "no timestamp capture and no wrapping of the response
body"; only token resolution is skipped. -/
theorem C6_cex_excluded_still_captures_and_wraps :
    (m0.call rmatch0 5 reqH).format = none
    ∧ (m0.call rmatch0 5 reqH).time = 5
    ∧ m0.call rmatch0 5 reqH ≠ m0.call rmatch0 6 reqH
    ∧ LoggerResponse.poll (m0.call rmatch0 5 reqH) res0 body0
        = { body := body0, format := none, size := 0, time := 5 } := by
  refine ⟨rfl, rfl, ?_, rfl⟩
  intro hcontra
  have ht : (5 : Int) = 6 := congrArg LoggerResponseState.time hcontra
  exact absurd ht (by decide)

/-- Claim C6 as amended: for an excluded path the call performs no token
resolution and release emits nothing, but the clock is still read into the
state and the response body is still wrapped in a `StreamLog` (carrying no
format, so its release is silent). -/
theorem C6_excluded_skips_resolution_not_wrapping (m : LoggerMiddleware)
    (rmatch : List String → String → Bool) (now0 : Int) (req : ServiceRequest)
    (res : HttpResponse) (body : List (Except String String))
    (h : (m.inner.value.exclude.contains req.path
          || rmatch m.inner.value.exclude_regex req.path) = true) :
    (m.call rmatch now0 req).format = none
    ∧ (m.call rmatch now0 req).time = now0
    ∧ LoggerResponse.poll (m.call rmatch now0 req) res body
        = { body := body, format := none, size := 0, time := now0 } := by
  have h2 : req.path ∈ m.inner.value.exclude
      ∨ rmatch m.inner.value.exclude_regex req.path = true := by
    simpa using h
  have hcall : m.call rmatch now0 req = { format := none, time := now0 } := by
    simp [LoggerMiddleware.call, h2]
  rw [hcall]
  exact ⟨rfl, rfl, rfl⟩

/-- Claim C6 witness: the concrete excluded path `/health`. -/
theorem C6_witness :
    (m0.inner.value.exclude.contains reqH.path
      || rmatch0 m0.inner.value.exclude_regex reqH.path) = true
    ∧ (m0.call rmatch0 11 reqH).format = none
    ∧ (m0.call rmatch0 11 reqH).time = 11
    ∧ LoggerResponse.poll (m0.call rmatch0 11 reqH) res0 body0
        = { body := body0, format := none, size := 0, time := 11 } := by
  have h := C6_excluded_skips_resolution_not_wrapping m0 rmatch0 11 reqH res0 body0 rfl
  exact ⟨rfl, h.1, h.2.1, h.2.2⟩

/-- Claim C9 counterexample: the percent token is left untouched by both the
request phase and the response phase, yet the renderer writes a percent sign
for it, not the empty string, refuting "every token never collapsed in an
earlier phase writes nothing". -/
theorem C9_cex_uncollapsed_token_writes :
    FormatText.Percent.render_request 0 req0 = FormatText.Percent
    ∧ FormatText.Percent.render_response res0 = FormatText.Percent
    ∧ FormatText.Percent.render 0 0 0 env0 = "%"
    ∧ "%" ≠ "" :=
  ⟨rfl, rfl, rfl, by decide⟩

/-- Claim C9 as amended: at render time collapsed text writes its stored
string, the size token writes the decimal byte count, the two elapsed-time
tokens compute the elapsed time from the render-time clock, the percent
token writes a percent sign, the environment token performs its lookup at
render time, and every remaining token (the request- and response-phase
tokens left uncollapsed) writes nothing. -/
theorem C9_render_phase_characterization (size : Nat) (entry now : Int)
    (env : String → Option String) (ft : FormatText)
    (hstr : ∀ s, ft ≠ .Str s) (hsz : ft ≠ .ResponseSize)
    (htime : ft ≠ .Time) (htm : ft ≠ .TimeMillis)
    (hpct : ft ≠ .Percent) (henv : ∀ nm, ft ≠ .EnvironHeader nm) :
    (∀ s, (FormatText.Str s).render size entry now env = s)
    ∧ FormatText.ResponseSize.render size entry now env = toString size
    ∧ FormatText.Time.render size entry now env = fmtSecs6 (now - entry)
    ∧ FormatText.TimeMillis.render size entry now env = fmtMillis6 (now - entry)
    ∧ FormatText.Percent.render size entry now env = "%"
    ∧ (∀ nm, (FormatText.EnvironHeader nm).render size entry now env
        = match env nm with | some v => v | none => "-")
    ∧ ft.render size entry now env = "" := by
  refine ⟨fun _ => rfl, rfl, rfl, rfl, rfl, fun _ => rfl, ?_⟩
  cases ft with
  | Str s => exact absurd rfl (hstr s)
  | ResponseSize => exact absurd rfl hsz
  | Time => exact absurd rfl htime
  | TimeMillis => exact absurd rfl htm
  | Percent => exact absurd rfl hpct
  | EnvironHeader nm => exact absurd rfl (henv nm)
  | RequestLine => rfl
  | RequestTime => rfl
  | ResponseStatus => rfl
  | RemoteAddr => rfl
  | RealIpRemoteAddr => rfl
  | UrlPath => rfl
  | RequestHeader nm => rfl
  | ResponseHeader nm => rfl
  | CustomRequest lbl fn => rfl

/-- Claim C9 witness: concrete renderings of a collapsed token and of an
uncollapsed request-phase token. -/
theorem C9_witness :
    (FormatText.Str "ab").render 3 0 0 env0 = "ab"
    ∧ FormatText.ResponseSize.render 3 0 0 env0 = toString 3
    ∧ FormatText.RequestLine.render 3 0 0 env0 = "" := by
  have h := C9_render_phase_characterization 3 0 0 env0 .RequestLine
    (by simp) (by simp) (by simp) (by simp) (by simp) (by simp)
  exact ⟨h.1 "ab", h.2.1, h.2.2.2.2.2.2⟩

/-- Claim C10: every builder method guarded by `Rc::get_mut(..).unwrap()`
panics (rather than erroring or silently doing nothing) whenever the shared
state has more than one handle, as after the middleware has been attached. -/
theorem C10_shared_state_mutation_panics (lg : Logger) (p pat label : String)
    (f : ServiceRequest → String) (h : lg.inner.strong ≠ 1) :
    lg.exclude p = .error .unwrapNone
    ∧ lg.exclude_regex pat = .error .unwrapNone
    ∧ lg.custom_request_replace label f = .error .unwrapNone := by
  refine ⟨?_, ?_, ?_⟩ <;>
    simp [Logger.exclude, Logger.exclude_regex, Logger.custom_request_replace, Rc.get_mut, h]

/-- Claim C10 witness: a logger whose state became shared through
`new_transform` panics on all three mutation methods. -/
theorem C10_witness :
    lgShared.inner.strong ≠ 1
    ∧ lgShared.exclude "/admin" = .error .unwrapNone
    ∧ lgShared.exclude_regex "^/private" = .error .unwrapNone
    ∧ lgShared.custom_request_replace "L" (fun _ => "v") = .error .unwrapNone := by
  have h := C10_shared_state_mutation_panics lgShared "/admin" "^/private" "L"
    (fun _ => "v") (by decide)
  exact ⟨by decide, h.1, h.2.1, h.2.2⟩

end AccessLog
